import Mathlib

/-!
# Verification of the monaco-remote collaboration core

Shallow embedding of the repository's source files:

* `src/src/selection.ts`          — `RemoteSelection` (selection overlay widget)
* `src/src/RemoteSelectionManager.ts` — `RemoteSelectionManager`
* `src/src/RemoteCursorManager.ts`    — `RemoteCursorManager`
* `src/unnamed/part_002`          — `RemoteCursorWidget` (cursor overlay widget)
* `src/unnamed/part_001`          — `EditorContentManager` (content sync controller)

The Monaco editor collaborator is embedded as a pure document model
(text plus a version counter).  Monaco facts used, each noted at its
point of use: `executeEdits` applies the edit, increments the model
version by one, and synchronously fires `onDidChangeModelContent`
whose event carries the applied change and the *new* version id;
`getPositionAt`/`getOffsetAt` convert between zero-based offsets and
1-based line/column positions; `setTimeout`/`clearTimeout` are embedded
as an explicit per-widget timer pool.  The pako-deflate/JSON codec is
a pluggable lossless round-trip and is embedded as the identity on the
decoded payload.
-/

/-- Monaco `IPosition`: 1-based line number and column. -/
structure IPosition where
  lineNumber : Nat
  column : Nat
deriving DecidableEq, Repr

/-- Monaco `IRange`. -/
structure IRange where
  startLineNumber : Nat
  startColumn : Nat
  endLineNumber : Nat
  endColumn : Nat
deriving DecidableEq, Repr

/-- Monaco `editor.IModelContentChange`: one text replacement. -/
structure IModelContentChange where
  range : IRange
  rangeOffset : Nat
  text : List Char
deriving DecidableEq, Repr

/-- Monaco `editor.IModelContentChangedEvent` (the fields the code reads). -/
structure IModelContentChangedEvent where
  changes : List IModelContentChange
  versionId : Nat
deriving DecidableEq, Repr

/-- Offset of the first character of the given 1-based line.
Embeds the line/column bookkeeping of Monaco's text model. -/
def lineStartOffset : List Char → Nat → Nat
  | _, 0 => 0
  | _, 1 => 0
  | [], _ + 2 => 0
  | c :: rest, n + 2 =>
      if c = '\n' then 1 + lineStartOffset rest (n + 1)
      else 1 + lineStartOffset rest (n + 2)

/-- Monaco `model.getOffsetAt`: line/column position to zero-based offset. -/
def getOffsetAt (text : List Char) (p : IPosition) : Nat :=
  lineStartOffset text p.lineNumber + (p.column - 1)

/-- Monaco `model.getPositionAt`: zero-based offset to line/column position. -/
def getPositionAt (text : List Char) (offset : Nat) : IPosition :=
  let pre := text.take offset
  { lineNumber := 1 + pre.count '\n'
    column := 1 + (pre.reverse.takeWhile (fun c => ¬ (c = '\n'))).length }

/-- Monaco `executeEdits` on the text buffer: replace the change's range
with its text (the offsets of the range endpoints are computed against
the text the edit is applied to). -/
def applyChange (text : List Char) (c : IModelContentChange) : List Char :=
  let s := getOffsetAt text { lineNumber := c.range.startLineNumber, column := c.range.startColumn }
  let e := getOffsetAt text { lineNumber := c.range.endLineNumber, column := c.range.endColumn }
  text.take s ++ c.text ++ text.drop e

/-- The attached Monaco text model: buffer plus monotonically increasing
version id (`model.getVersionId()`). -/
structure EditorState where
  text : List Char
  version : Nat
deriving DecidableEq, Repr

/-! ## Registries

JavaScript `Map` keyed by participant id, embedded as an association
list: `set` overwrites in place or appends, `delete` removes. -/

/-- `Map.get`. -/
def regLookup {α : Type} : List (String × α) → String → Option α
  | [], _ => none
  | (k, v) :: rest, id => if k = id then some v else regLookup rest id

/-- `Map.set`: overwrite the existing binding or append a new one. -/
def regSet {α : Type} : List (String × α) → String → α → List (String × α)
  | [], id, v => [(id, v)]
  | (k, w) :: rest, id, v =>
      if k = id then (id, v) :: rest else (k, w) :: regSet rest id v

/-- `Map.delete`. -/
def regErase {α : Type} : List (String × α) → String → List (String × α)
  | [], _ => []
  | (k, w) :: rest, id =>
      if k = id then regErase rest id else (k, w) :: regErase rest id

/-! ## RemoteCursorWidget (`src/unnamed/part_002`)

DOM state is embedded as the flags the code toggles; `setTimeout` /
`clearTimeout` are embedded per widget: `nextTimerId` supplies fresh
timer handles, `liveTimers` is the set of scheduled, not-yet-fired,
not-cancelled timers, `hideTimer` mirrors the `hideTimer` field.
`onDisposedCount` counts invocations of the `onDisposed` callback. -/

structure RemoteCursorWidget where
  allocId : Nat
  color : String
  label : String
  tooltipEnabled : Bool
  tooltipDuration : Nat
  position : Option IPosition
  visible : Bool
  tooltipVisible : Bool
  inEditor : Bool
  scrollListenerActive : Bool
  hideTimer : Option Nat
  liveTimers : List Nat
  nextTimerId : Nat
  pendingTooltipShows : Nat
  disposed : Bool
  onDisposedCount : Nat
deriving DecidableEq, Repr

/-- The `RemoteCursorWidget` constructor: builds the DOM node (tooltip
node and scroll listener only when tooltips are enabled), sets
`hideTimer = null`, adds the content widget to the editor and starts
undisposed.  The tooltip starts transparent (its opacity is only ever
set by `setTooltipVisible`). -/
def mkRemoteCursorWidget (allocId : Nat) (color label : String)
    (tooltipEnabled : Bool) (tooltipDuration : Nat) : RemoteCursorWidget :=
  { allocId := allocId
    color := color
    label := label
    tooltipEnabled := tooltipEnabled
    tooltipDuration := tooltipDuration
    position := none
    visible := true
    tooltipVisible := false
    inEditor := true
    scrollListenerActive := tooltipEnabled
    hideTimer := none
    liveTimers := []
    nextTimerId := 0
    pendingTooltipShows := 0
    disposed := false
    onDisposedCount := 0 }

/-- `hide()`: `domNode.style.display = "none"`. -/
def RemoteCursorWidget.hide (w : RemoteCursorWidget) : RemoteCursorWidget :=
  { w with visible := false }

/-- `show()`: `domNode.style.display = "inherit"`. -/
def RemoteCursorWidget.show (w : RemoteCursorWidget) : RemoteCursorWidget :=
  { w with visible := true }

/-- `updatePosition(position)`: store the position and ask the editor to
lay the content widget out (`layoutContentWidget` no-ops in the editor
when the widget has been removed, so it carries no widget state). -/
def RemoteCursorWidget.updatePosition (w : RemoteCursorWidget) (p : IPosition) :
    RemoteCursorWidget :=
  { w with position := some { lineNumber := p.lineNumber, column := p.column } }

/-- `setPosition(position)`: update the position, then, when a tooltip
node exists, queue `setTimeout(() => this.showTooltip(), 0)`. -/
def RemoteCursorWidget.setPosition (w : RemoteCursorWidget) (p : IPosition) :
    RemoteCursorWidget :=
  let w1 := w.updatePosition p
  if w1.tooltipEnabled then { w1 with pendingTooltipShows := w1.pendingTooltipShows + 1 }
  else w1

/-- `setOffset(offset)`: no-op without a model, else convert the offset
and delegate to `setPosition`. -/
def RemoteCursorWidget.setOffset (w : RemoteCursorWidget) (modelText : Option (List Char))
    (offset : Nat) : RemoteCursorWidget :=
  match modelText with
  | none => w
  | some text => w.setPosition (getPositionAt text offset)

/-- `dispose()`: second call returns immediately; the first call removes
the content widget, disposes the scroll listener, marks the widget
disposed and invokes `onDisposed` — and does NOT clear `hideTimer`. -/
def RemoteCursorWidget.dispose (w : RemoteCursorWidget) : RemoteCursorWidget :=
  if w.disposed then w
  else
    { w with inEditor := false
             scrollListenerActive := false
             disposed := true
             onDisposedCount := w.onDisposedCount + 1 }

/-- `showTooltip()`: reposition the tooltip, then either cancel the
pending hide timer (tooltip already visible) or make the tooltip
visible, and finally schedule a fresh hide timer. -/
def RemoteCursorWidget.showTooltip (w : RemoteCursorWidget) : RemoteCursorWidget :=
  let w1 :=
    match w.hideTimer with
    | some t => { w with liveTimers := w.liveTimers.erase t }
    | none => { w with tooltipVisible := true }
  { w1 with hideTimer := some w1.nextTimerId
            liveTimers := w1.liveTimers ++ [w1.nextTimerId]
            nextTimerId := w1.nextTimerId + 1 }

/-- The event loop running one queued `setTimeout(() => showTooltip(), 0)`
callback from `setPosition`. -/
def RemoteCursorWidget.runPendingShow (w : RemoteCursorWidget) : RemoteCursorWidget :=
  match w.pendingTooltipShows with
  | 0 => w
  | n + 1 => RemoteCursorWidget.showTooltip { w with pendingTooltipShows := n }

/-- The event loop firing the scheduled hide-timer callback
`() => { this.setTooltipVisible(false); this.hideTimer = null }`;
it runs only if the timer is still scheduled and uncancelled. -/
def RemoteCursorWidget.fireHideTimer (w : RemoteCursorWidget) : RemoteCursorWidget :=
  match w.hideTimer with
  | none => w
  | some t =>
      if t ∈ w.liveTimers then
        { w with tooltipVisible := false
                 hideTimer := none
                 liveTimers := w.liveTimers.erase t }
      else w

/-- The operations a client (or the event loop) can apply to a live
cursor widget. -/
inductive CursorOp
  | disposeOp
  | showOp
  | hideOp
  | setPositionOp (p : IPosition)
  | setOffsetOp (modelText : Option (List Char)) (offset : Nat)
  | runPendingShowOp
  | fireHideTimerOp
deriving DecidableEq, Repr

def applyCursorOp (w : RemoteCursorWidget) : CursorOp → RemoteCursorWidget
  | CursorOp.disposeOp => w.dispose
  | CursorOp.showOp => w.show
  | CursorOp.hideOp => w.hide
  | CursorOp.setPositionOp p => w.setPosition p
  | CursorOp.setOffsetOp mt off => w.setOffset mt off
  | CursorOp.runPendingShowOp => w.runPendingShow
  | CursorOp.fireHideTimerOp => w.fireHideTimer

def runCursorOps (w : RemoteCursorWidget) (ops : List CursorOp) : RemoteCursorWidget :=
  ops.foldl applyCursorOp w

/-! ## RemoteCursorManager (`src/src/RemoteCursorManager.ts`)

`created` counts widget constructions and doubles as the fresh
allocation id, so widget identity is observable. -/

structure RemoteCursorManager where
  cursorWidgets : List (String × RemoteCursorWidget)
  tooltips : Bool
  tooltipDuration : Nat
  created : Nat
deriving DecidableEq, Repr

structure IEditorUser where
  uid : String
  color : String
  label : String
deriving DecidableEq, Repr

/-- The `RemoteCursorManager` constructor (an editor was supplied). -/
def mkRemoteCursorManager (tooltips : Bool) (tooltipDuration : Nat) : RemoteCursorManager :=
  { cursorWidgets := []
    tooltips := tooltips
    tooltipDuration := tooltipDuration
    created := 0 }

/-- `addCursor(user)`: return the existing widget unchanged if one is
registered under `user.uid`, otherwise construct a widget (wired with
`onDisposed: () => this.removeCursor(user.uid)`) and register it. -/
def addCursor (m : RemoteCursorManager) (user : IEditorUser) :
    RemoteCursorWidget × RemoteCursorManager :=
  match regLookup m.cursorWidgets user.uid with
  | some cursorWidget => (cursorWidget, m)
  | none =>
      let cursorWidget :=
        mkRemoteCursorWidget m.created user.color user.label m.tooltips (m.tooltipDuration * 1000)
      (cursorWidget,
       { m with cursorWidgets := regSet m.cursorWidgets user.uid cursorWidget
                created := m.created + 1 })

/-- `removeCursor(id)`: dispose the widget unless absent or already
disposed, then delete the registry entry.  When the widget is live its
`dispose` invokes `onDisposed`, which re-enters `removeCursor(id)`; the
re-entrant call finds the (now disposed) widget, skips `dispose` and
performs the `delete`, after which the outer `delete` is a no-op.  The
unfolding below replays that execution. -/
def removeCursor (m : RemoteCursorManager) (id : String) : RemoteCursorManager :=
  match regLookup m.cursorWidgets id with
  | none => { m with cursorWidgets := regErase m.cursorWidgets id }
  | some cursorWidget =>
      if cursorWidget.disposed then
        { m with cursorWidgets := regErase m.cursorWidgets id }
      else
        { m with cursorWidgets :=
            regErase (regSet m.cursorWidgets id cursorWidget.dispose) id }

/-- `setCursorPosition(id, position)`: `cursorWidget?.setPosition(position)`. -/
def setCursorPosition (m : RemoteCursorManager) (id : String) (position : IPosition) :
    RemoteCursorManager :=
  match regLookup m.cursorWidgets id with
  | none => m
  | some cursorWidget =>
      { m with cursorWidgets := regSet m.cursorWidgets id (cursorWidget.setPosition position) }

/-- `setCursorOffset(id, offset)`: `cursorWidget?.setOffset(offset)`
(the widget reads the editor's current model). -/
def setCursorOffset (m : RemoteCursorManager) (id : String)
    (modelText : Option (List Char)) (offset : Nat) : RemoteCursorManager :=
  match regLookup m.cursorWidgets id with
  | none => m
  | some cursorWidget =>
      { m with cursorWidgets := regSet m.cursorWidgets id (cursorWidget.setOffset modelText offset) }

/-! ## RemoteSelection (`src/src/selection.ts`) -/

/-- The decoration `render` pushes through `deltaDecorations`. -/
structure SelDecoration where
  range : IRange
  className : String
  hoverMessage : Option String
deriving DecidableEq, Repr

structure RemoteSelection where
  allocId : Nat
  id : String
  label : String
  styleColor : String
  className : String
  startPosition : Option IPosition
  endPosition : Option IPosition
  decorations : Option SelDecoration
  styleInHead : Bool
  disposed : Bool
  onDisposedCount : Nat
deriving DecidableEq, Repr

/-- The `RemoteSelection` constructor: stores id and label, installs the
dynamic style element (whose css carries the color) in the document
head, starts with no decorations. -/
def mkRemoteSelection (allocId : Nat) (id color label : String) : RemoteSelection :=
  { allocId := allocId
    id := id
    label := label
    styleColor := color
    className := "monaco-remote-selection monaco-remote-selection-" ++ id
    startPosition := none
    endPosition := none
    decorations := none
    styleInHead := true
    disposed := false
    onDisposedCount := 0 }

/-- `swapIfNeeded(start, end)`: keep the pair if `start` is on an earlier
line, or on the same line at a column not after `end`; otherwise swap. -/
def RemoteSelection.swapIfNeeded (start e : IPosition) : IPosition × IPosition :=
  if start.lineNumber < e.lineNumber ∨
     (start.lineNumber = e.lineNumber ∧ start.column ≤ e.column) then
    (start, e)
  else
    (e, start)

/-- `render()`: nothing to draw without both endpoints; otherwise replace
the decorations with one styled range whose hover message is the label
(a string, hence never `null`). -/
def RemoteSelection.render (s : RemoteSelection) : RemoteSelection :=
  match s.startPosition, s.endPosition with
  | some sp, some ep =>
      let range : IRange :=
        { startLineNumber := sp.lineNumber
          startColumn := sp.column
          endLineNumber := ep.lineNumber
          endColumn := ep.column }
      let d : SelDecoration :=
        { range := range, className := s.className, hoverMessage := some s.label }
      { s with decorations := some d }
  | _, _ => s

/-- `setPositions(start, end)`: order the endpoints, store them, render. -/
def RemoteSelection.setPositions (s : RemoteSelection) (start e : IPosition) : RemoteSelection :=
  let ordered := RemoteSelection.swapIfNeeded start e
  RemoteSelection.render { s with startPosition := some ordered.1, endPosition := some ordered.2 }

/-- `setOffsets(start, end)`: no-op without a model, else convert both
offsets against it and delegate to `setPositions`. -/
def RemoteSelection.setOffsets (s : RemoteSelection) (modelText : Option (List Char))
    (start e : Nat) : RemoteSelection :=
  match modelText with
  | none => s
  | some text => s.setPositions (getPositionAt text start) (getPositionAt text e)

/-- `show()`: re-render. -/
def RemoteSelection.show (s : RemoteSelection) : RemoteSelection :=
  RemoteSelection.render s

/-- `hide()`: clear the decorations. -/
def RemoteSelection.hide (s : RemoteSelection) : RemoteSelection :=
  { s with decorations := none }

/-- `dispose()`: only on the first call: take the style element out of
the document head, hide, mark disposed, invoke `onDisposed`. -/
def RemoteSelection.dispose (s : RemoteSelection) : RemoteSelection :=
  if s.disposed then s
  else
    { s with styleInHead := false
             decorations := none
             disposed := true
             onDisposedCount := s.onDisposedCount + 1 }

/-- The operations a client can apply to a live selection overlay. -/
inductive SelOp
  | disposeOp
  | showOp
  | hideOp
  | setPositionsOp (start e : IPosition)
  | setOffsetsOp (modelText : Option (List Char)) (start e : Nat)
deriving DecidableEq, Repr

def applySelOp (s : RemoteSelection) : SelOp → RemoteSelection
  | SelOp.disposeOp => s.dispose
  | SelOp.showOp => s.show
  | SelOp.hideOp => s.hide
  | SelOp.setPositionsOp a b => s.setPositions a b
  | SelOp.setOffsetsOp mt a b => s.setOffsets mt a b

def runSelOps (s : RemoteSelection) (ops : List SelOp) : RemoteSelection :=
  ops.foldl applySelOp s

/-! ## RemoteSelectionManager (`src/src/RemoteSelectionManager.ts`) -/

structure RemoteSelectionManager where
  remoteSelections : List (String × RemoteSelection)
  created : Nat
deriving DecidableEq, Repr

def mkRemoteSelectionManager : RemoteSelectionManager :=
  { remoteSelections := [], created := 0 }

/-- `addSelection(user)`: return the existing selection unchanged if one
is registered under `user.uid`; otherwise construct a `RemoteSelection`
with `color: user.color` and — as written in the source — also
`label: user.color`, wired with
`onDisposed: () => this.removeSelection(user.uid)`, and register it. -/
def addSelection (m : RemoteSelectionManager) (user : IEditorUser) :
    RemoteSelection × RemoteSelectionManager :=
  match regLookup m.remoteSelections user.uid with
  | some selection => (selection, m)
  | none =>
      let selection := mkRemoteSelection m.created user.uid user.color user.color
      (selection,
       { m with remoteSelections := regSet m.remoteSelections user.uid selection
                created := m.created + 1 })

/-- `removeSelection(id)`: dispose the selection unless absent or already
disposed.  Unlike `RemoteCursorManager.removeCursor`, there is no
`delete` on the registry.  When the selection is live its `dispose`
invokes `onDisposed`, which re-enters `removeSelection(id)`; the
re-entrant call finds the selection already disposed and does nothing,
so the net effect is the in-place disposal of the registered object. -/
def removeSelection (m : RemoteSelectionManager) (id : String) : RemoteSelectionManager :=
  match regLookup m.remoteSelections id with
  | none => m
  | some remoteSelection =>
      if remoteSelection.disposed then m
      else
        { m with remoteSelections := regSet m.remoteSelections id remoteSelection.dispose }

/-- `setSelectionOffsets(id, start, end)`: `remoteSelection?.setOffsets`. -/
def setSelectionOffsets (m : RemoteSelectionManager) (id : String)
    (modelText : Option (List Char)) (start e : Nat) : RemoteSelectionManager :=
  match regLookup m.remoteSelections id with
  | none => m
  | some remoteSelection =>
      { m with remoteSelections :=
          regSet m.remoteSelections id (remoteSelection.setOffsets modelText start e) }

/-! ## EditorContentManager (`src/unnamed/part_001`)

Embedded in its synchronizing configuration: the constructor only wires
the cursor manager, the selection manager, the channel receiver and the
content-change listener when `options.channel` is supplied, so that is
the configuration on which every send/receive path below exists.
`sendMessage`'s deflate-and-stringify is the pluggable lossless codec,
embedded as the identity on the decoded payload; `outbound` collects
everything handed to `channel.sendMessage`. -/

/-- `IMessageData` — the decoded payload: a `messageType` tag plus the
kind-specific body the dispatch in `receiver` reads.  An unrecognized
tag falls through to the `default` branch. -/
inductive IMessageData
  | codeSnippet (event : IModelContentChangedEvent)
  | cursorPosition (position : IPosition)
  | cursorSelection (selectionStart position : IPosition)
  | unknown (messageType : String)
deriving DecidableEq, Repr

/-- `IMessage` — the envelope: optional sender uid plus the payload
(`timestamp` is never read). -/
structure IMessage where
  uid : Option String
  data : IMessageData
deriving DecidableEq, Repr

structure EditorContentManager where
  model : Option EditorState
  cursorManager : RemoteCursorManager
  selectionManager : RemoteSelectionManager
  outbound : List IMessageData
deriving DecidableEq, Repr

/-- The `EditorContentManager` constructor with a channel supplied:
cursor manager with `tooltips: true, tooltipDuration: 20`, fresh
selection manager, nothing sent yet. -/
def mkEditorContentManager (model : Option EditorState) : EditorContentManager :=
  { model := model
    cursorManager := mkRemoteCursorManager true 20
    selectionManager := mkRemoteSelectionManager
    outbound := [] }

/-- `sendMessage(message)`: hand the encoded payload to the channel. -/
def sendMessage (m : EditorContentManager) (message : IMessageData) : EditorContentManager :=
  { m with outbound := m.outbound ++ [message] }

/-- `sendCodeSnippet(event)` — the `onDidChangeModelContent` listener:
nothing without a model; drop the event when its version id is strictly
below the model's current version id; otherwise send it as a
`CodeSnippet` message. -/
def sendCodeSnippet (m : EditorContentManager) (event : IModelContentChangedEvent) :
    EditorContentManager :=
  match m.model with
  | none => m
  | some model =>
      if event.versionId < model.version then m
      else sendMessage m (IMessageData.codeSnippet event)

/-- One `this.editor.executeEdits(uid, [{ range, text, forceMoveMarkers }])`
call: the editor applies the edit to the model, increments the model
version id by one, and synchronously fires `onDidChangeModelContent`
with the applied change (whose `rangeOffset` is the range's start
offset in the pre-edit text) and the new version id — the registered
listener being this manager's `sendCodeSnippet`. -/
def executeEditsOne (m : EditorContentManager) (c : IModelContentChange) :
    EditorContentManager :=
  match m.model with
  | none => m
  | some model =>
      let newText := applyChange model.text c
      let m1 := { m with model := some { text := newText, version := model.version + 1 } }
      let fired : IModelContentChangedEvent :=
        { changes := [{ range := c.range
                        rangeOffset := getOffsetAt model.text
                          { lineNumber := c.range.startLineNumber
                            column := c.range.startColumn }
                        text := c.text }]
          versionId := model.version + 1 }
      sendCodeSnippet m1 fired

/-- The body of `updateContent`'s `forEach`: execute the edit, then move
the sender's cursor overlay to
`model.getPositionAt(rangeOffset + text.length)` read off the
now-mutated model. -/
def applyOneRemoteChange (uid : String) (m : EditorContentManager)
    (c : IModelContentChange) : EditorContentManager :=
  let m1 := executeEditsOne m c
  match m1.model with
  | none => m1
  | some model =>
      let position := getPositionAt model.text (c.rangeOffset + c.text.length)
      { m1 with cursorManager := setCursorPosition m1.cursorManager uid position }

/-- `updateContent(uid, event)`: nothing without a model; drop the event
when its version id is at most the model's current version id;
otherwise apply each change in order. -/
def updateContent (uid : String) (m : EditorContentManager)
    (event : IModelContentChangedEvent) : EditorContentManager :=
  match m.model with
  | none => m
  | some model =>
      if event.versionId ≤ model.version then m
      else event.changes.foldl (applyOneRemoteChange uid) m

/-- `updateCursorPosition(uid, event)`: nothing without a model; convert
the carried position to an offset and reposition the sender's cursor. -/
def updateCursorPosition (uid : String) (m : EditorContentManager)
    (position : IPosition) : EditorContentManager :=
  match m.model with
  | none => m
  | some model =>
      let offset := getOffsetAt model.text position
      { m with cursorManager := setCursorOffset m.cursorManager uid (some model.text) offset }

/-- Monaco `Selection.getStartPosition` of
`new Selection(selStart.line, selStart.col, pos.line, pos.col)`: the
lexicographically earlier of the two carried points. -/
def selectionStartOf (selectionStart position : IPosition) : IPosition :=
  if selectionStart.lineNumber < position.lineNumber ∨
     (selectionStart.lineNumber = position.lineNumber ∧
      selectionStart.column ≤ position.column) then selectionStart
  else position

/-- Monaco `Selection.getEndPosition`: the lexicographically later point. -/
def selectionEndOf (selectionStart position : IPosition) : IPosition :=
  if selectionStart.lineNumber < position.lineNumber ∨
     (selectionStart.lineNumber = position.lineNumber ∧
      selectionStart.column ≤ position.column) then position
  else selectionStart

/-- `updateSelection(uid, event)`: nothing without a model; rebuild the
selection, convert its ordered endpoints to offsets and update the
sender's selection overlay. -/
def updateSelection (uid : String) (m : EditorContentManager)
    (selectionStart position : IPosition) : EditorContentManager :=
  match m.model with
  | none => m
  | some model =>
      let startOffset := getOffsetAt model.text (selectionStartOf selectionStart position)
      let endOffset := getOffsetAt model.text (selectionEndOf selectionStart position)
      { m with selectionManager :=
          setSelectionOffsets m.selectionManager uid (some model.text) startOffset endOffset }

/-- `receiver(message)`: drop envelopes without a sender uid; lazily
ensure cursor and selection overlays exist for the sender (with the
derived placeholder label and color); decode; dispatch on the tag,
ignoring unknown tags. -/
def receiver (m : EditorContentManager) (message : IMessage) : EditorContentManager :=
  match message.uid with
  | none => m
  | some uid =>
      let user : IEditorUser := { uid := uid, color := "blue", label := "User-" ++ uid }
      let m1 := { m with cursorManager := (addCursor m.cursorManager user).2
                         selectionManager := (addSelection m.selectionManager user).2 }
      match message.data with
      | IMessageData.codeSnippet event => updateContent uid m1 event
      | IMessageData.cursorPosition position => updateCursorPosition uid m1 position
      | IMessageData.cursorSelection selectionStart position =>
          updateSelection uid m1 selectionStart position
      | IMessageData.unknown _ => m1

/-- Channel delivery of a sequence of envelopes, in arrival order. -/
def processInbound (m : EditorContentManager) (messages : List IMessage) :
    EditorContentManager :=
  messages.foldl receiver m

/-! ## Observations and scenario inputs -/

/-- The position of the cursor overlay registered under `id` (the fresh
widget of a lazily created participant has no position yet). -/
def widgetPosAt (l : List (String × RemoteCursorWidget)) (id : String) : Option IPosition :=
  match regLookup l id with
  | some w => w.position
  | none => none

/-- The stored start position of the selection overlay under `id`. -/
def selStartAt (l : List (String × RemoteSelection)) (id : String) : Option IPosition :=
  match regLookup l id with
  | some s => s.startPosition
  | none => none

/-- The stored end position of the selection overlay under `id`. -/
def selEndAt (l : List (String × RemoteSelection)) (id : String) : Option IPosition :=
  match regLookup l id with
  | some s => s.endPosition
  | none => none

def cursorPosOf (m : EditorContentManager) (id : String) : Option IPosition :=
  widgetPosAt m.cursorManager.cursorWidgets id

def selStartOf (m : EditorContentManager) (id : String) : Option IPosition :=
  selStartAt m.selectionManager.remoteSelections id

def selEndOf (m : EditorContentManager) (id : String) : Option IPosition :=
  selEndAt m.selectionManager.remoteSelections id

/-- An inbound `CodeSnippet` envelope from `uid` carrying one change at
the given version. -/
def mkEditMsg (uid : String) (v : Nat) (c : IModelContentChange) : IMessage :=
  { uid := some uid
    data := IMessageData.codeSnippet { changes := [c], versionId := v } }

/-- Single-change `CodeSnippet` envelopes from `uid` with consecutive
versions `v + 1, v + 2, ...`. -/
def mkEditMsgs (uid : String) (v : Nat) : List IModelContentChange → List IMessage
  | [] => []
  | c :: cs => mkEditMsg uid (v + 1) c :: mkEditMsgs uid (v + 1) cs

/-- What the code does: after each delivered envelope, observe the
attached model and the sender's cursor overlay position. -/
def obsTrace (uid : String) (m : EditorContentManager) :
    List IMessage → List (Option EditorState × Option IPosition)
  | [] => []
  | msg :: rest =>
      let m1 := receiver m msg
      (m1.model, cursorPosOf m1 uid) :: obsTrace uid m1 rest

/-- The spec's description of monotonic acceptance, stated independently
of the receive path: each arriving change is applied to the document
exactly once, in arrival order, the version advances with each one, and
after each the sender's cursor overlay sits at the offset immediately
following the inserted text. -/
def specEditTrace (t : List Char) (v : Nat) :
    List IModelContentChange → List (Option EditorState × Option IPosition)
  | [] => []
  | c :: cs =>
      let t1 := applyChange t c
      (some { text := t1, version := v + 1 },
       some (getPositionAt t1 (c.rangeOffset + c.text.length))) :: specEditTrace t1 (v + 1) cs

/-- The spec's position order: compare by line first, then column. -/
def posBeforeOrEqualSpec (a b : IPosition) : Bool :=
  if a.lineNumber < b.lineNumber then true
  else if b.lineNumber < a.lineNumber then false
  else a.column ≤ b.column

/-- A single-character insertion at the top of the document. -/
def insChange (ch : Char) : IModelContentChange :=
  { range := { startLineNumber := 1, startColumn := 1, endLineNumber := 1, endColumn := 1 }
    rangeOffset := 0
    text := [ch] }

/-- A participant whose display label differs from their color. -/
def aliceUser : IEditorUser := { uid := "u1", color := "red", label := "Alice" }

/-- Controller attached to an empty document at version 0. -/
def emptyDocManager : EditorContentManager :=
  mkEditorContentManager (some { text := [], version := 0 })

/-- The inbound remote edit of the feedback-loop scenario: "alice" typed
`hi` at the top of a version-0 document, producing version 1. -/
def hiChange : IModelContentChange :=
  { range := { startLineNumber := 1, startColumn := 1, endLineNumber := 1, endColumn := 1 }
    rangeOffset := 0
    text := ['h', 'i'] }

def hiEditMessage : IMessage :=
  { uid := some "alice"
    data := IMessageData.codeSnippet { changes := [hiChange], versionId := 1 } }

/-- First inbound edit of the multi-change scenario: version 1 carrying
two changes. -/
def c3Msg1 : IMessage :=
  { uid := some "alice"
    data := IMessageData.codeSnippet { changes := [insChange 'a', insChange 'b'], versionId := 1 } }

/-- Second inbound edit of the multi-change scenario: version 2 carrying
one change. -/
def c3Msg2 : IMessage := mkEditMsg "alice" 2 (insChange 'c')

/-- A cursor widget with tooltips enabled, as `EditorContentManager`
configures them. -/
def c9Widget : RemoteCursorWidget := mkRemoteCursorWidget 0 "red" "Alice" true 20000

/-! ## Theorems -/

theorem regLookup_regSet_eq {α : Type} (l : List (String × α)) (k : String) (v : α) :
    regLookup (regSet l k v) k = some v := by
  induction l with
  | nil => simp [regSet, regLookup]
  | cons hd tl ih =>
      obtain ⟨k0, v0⟩ := hd
      by_cases h : k0 = k
      · simp [regSet, regLookup, h]
      · simp [regSet, regLookup, h, ih]

theorem regLookup_regSet_ne {α : Type} (l : List (String × α)) (k k' : String) (v : α)
    (h : k' ≠ k) : regLookup (regSet l k v) k' = regLookup l k' := by
  have h2 : ¬ (k = k') := fun hh => h hh.symm
  induction l with
  | nil => simp [regSet, regLookup, h2]
  | cons hd tl ih =>
      obtain ⟨k0, v0⟩ := hd
      by_cases h0 : k0 = k
      · subst h0
        simp [regSet, regLookup, h2]
      · by_cases h1 : k0 = k'
        · simp [regSet, regLookup, h0, h1, h]
        · simp [regSet, regLookup, h0, h1, ih]

/-- C8: the position-ordering function compares by line first, then
column: if `a` is before-or-equal `b` it returns `(a, b)`, else
`(b, a)`; given `(line 5, col 3)` and `(line 5, col 1)` it returns
`((5,1), (5,3))`; equal positions come back unchanged as a zero-width
range. -/
theorem swapIfNeeded_orders_by_line_then_column :
    (∀ a b : IPosition,
        RemoteSelection.swapIfNeeded a b =
          if posBeforeOrEqualSpec a b then (a, b) else (b, a)) ∧
    RemoteSelection.swapIfNeeded { lineNumber := 5, column := 3 } { lineNumber := 5, column := 1 } =
      ({ lineNumber := 5, column := 1 }, { lineNumber := 5, column := 3 }) ∧
    (∀ p : IPosition, RemoteSelection.swapIfNeeded p p = (p, p)) := by
  refine ⟨?_, by decide, ?_⟩
  · intro a b
    unfold RemoteSelection.swapIfNeeded posBeforeOrEqualSpec
    rcases Nat.lt_trichotomy a.lineNumber b.lineNumber with h | h | h
    · simp [h, Nat.ne_of_lt h]
    · simp [h, Nat.lt_irrefl]
    · simp [Nat.lt_asymm h, h, Nat.ne_of_gt h, Nat.not_lt.mpr (Nat.le_of_lt h)]
  · intro p
    simp [RemoteSelection.swapIfNeeded]

/-- C6: for both overlay managers, adding the same user id twice returns
the very same overlay both times and leaves the manager untouched on
the second call (no duplicate creation, no property refresh), and the
number of constructed widgets grows only when the id was absent. -/
theorem add_overlay_idempotent :
    (∀ (m : RemoteCursorManager) (u : IEditorUser),
        addCursor (addCursor m u).2 u = ((addCursor m u).1, (addCursor m u).2)) ∧
    (∀ (m : RemoteCursorManager) (u : IEditorUser),
        (addCursor m u).2.created =
          if (regLookup m.cursorWidgets u.uid).isSome then m.created else m.created + 1) ∧
    (∀ (m : RemoteSelectionManager) (u : IEditorUser),
        addSelection (addSelection m u).2 u = ((addSelection m u).1, (addSelection m u).2)) ∧
    (∀ (m : RemoteSelectionManager) (u : IEditorUser),
        (addSelection m u).2.created =
          if (regLookup m.remoteSelections u.uid).isSome then m.created else m.created + 1) := by
  refine ⟨?_, ?_, ?_, ?_⟩
  · intro m u
    cases h : regLookup m.cursorWidgets u.uid with
    | some w => simp [addCursor, h]
    | none => simp [addCursor, h, regLookup_regSet_eq]
  · intro m u
    cases h : regLookup m.cursorWidgets u.uid with
    | some w => simp [addCursor, h]
    | none => simp [addCursor, h]
  · intro m u
    cases h : regLookup m.remoteSelections u.uid with
    | some s => simp [addSelection, h]
    | none => simp [addSelection, h, regLookup_regSet_eq]
  · intro m u
    cases h : regLookup m.remoteSelections u.uid with
    | some s => simp [addSelection, h]
    | none => simp [addSelection, h]

/-- C10: the selection manager constructs each new `RemoteSelection`
with its label set to the user's color string, so the hover message the
rendered decoration carries is the color value — not the participant's
display label. -/
theorem addSelection_label_is_color :
    (∀ u : IEditorUser,
        (addSelection mkRemoteSelectionManager u).1.label = u.color) ∧
    (∀ (u : IEditorUser) (p q : IPosition),
        (((addSelection mkRemoteSelectionManager u).1.setPositions p q).decorations).map
            SelDecoration.hoverMessage = some (some u.color)) ∧
    (addSelection mkRemoteSelectionManager aliceUser).1.label ≠ aliceUser.label := by
  refine ⟨?_, ?_, by decide⟩
  · intro u
    simp [addSelection, mkRemoteSelectionManager, regLookup, mkRemoteSelection]
  · intro u p q
    simp [addSelection, mkRemoteSelectionManager, regLookup, mkRemoteSelection,
      RemoteSelection.setPositions, RemoteSelection.render]

/-- C5 (failing part, selection manager): `removeSelection` disposes the
registered selection but — unlike `RemoteCursorManager.removeCursor` —
never deletes the registry entry, so after removing a live selection
the registry still contains a (disposed) entry for that id, and a later
`addSelection` for the same id hands that disposed entry back. -/
theorem removeSelection_leaves_registry_entry :
    ((regLookup (removeSelection (addSelection mkRemoteSelectionManager aliceUser).2
        "u1").remoteSelections "u1").map RemoteSelection.disposed = some true) ∧
    (addSelection (removeSelection (addSelection mkRemoteSelectionManager aliceUser).2
        "u1") aliceUser).1.disposed = true ∧
    (regLookup (removeCursor (addCursor (mkRemoteCursorManager true 20) aliceUser).2
        "u1").cursorWidgets "u1" = none) := by
  refine ⟨by decide, by decide, by decide⟩

/-- C9 (failing part): disposing a cursor widget while a tooltip
auto-hide timer is pending leaves that timer scheduled — `dispose`
never calls `clearTimeout` — so the hide callback later fires against
the already-disposed widget (here: it finds the timer live and turns
the tooltip opacity off on the disposed widget). -/
theorem dispose_leaves_hide_timer_pending :
    (c9Widget.showTooltip.dispose).disposed = true ∧
    (c9Widget.showTooltip.dispose).hideTimer = some 0 ∧
    (c9Widget.showTooltip.dispose).liveTimers = [0] ∧
    (c9Widget.showTooltip.dispose).tooltipVisible = true ∧
    (c9Widget.showTooltip.dispose).fireHideTimer.tooltipVisible = false := by
  refine ⟨by decide, by decide, by decide, by decide, by decide⟩

/-- C1 (failing): applying the remote CodeEdit `hi`@version-1 to a
version-0 document makes `executeEdits` fire the content-change
listener with the new version id; `sendCodeSnippet`'s `versionId <
getVersionId()` guard does not reject it, so the controller re-encodes
and re-sends the just-applied edit as an outbound `CodeSnippet`. -/
theorem remote_edit_is_rebroadcast :
    (receiver emptyDocManager hiEditMessage).outbound =
      [IMessageData.codeSnippet
        { changes := [{ range := hiChange.range, rangeOffset := 0, text := hiChange.text }]
          versionId := 1 }] ∧
    (receiver emptyDocManager hiEditMessage).model = some { text := ['h', 'i'], version := 1 } := by
  refine ⟨by decide, by decide⟩

/-- C4: with a model attached, the outbound content-change path discards
an event exactly when its carried version is strictly below the current
model version and otherwise sends it as a `CodeSnippet`; the inbound
path, by contrast, also discards at equality. -/
theorem sendCodeSnippet_version_guard (m : EditorContentManager) (model : EditorState)
    (event : IModelContentChangedEvent) (hm : m.model = some model) :
    (event.versionId < model.version → sendCodeSnippet m event = m) ∧
    (model.version ≤ event.versionId →
        sendCodeSnippet m event =
          { m with outbound := m.outbound ++ [IMessageData.codeSnippet event] }) ∧
    (∀ uid : String, event.versionId = model.version → updateContent uid m event = m) := by
  refine ⟨?_, ?_, ?_⟩
  · intro h
    simp [sendCodeSnippet, hm, h]
  · intro h
    simp [sendCodeSnippet, sendMessage, hm, Nat.not_lt.mpr h]
  · intro uid h
    simp [updateContent, hm, Nat.le_of_eq h]

theorem sendCodeSnippet_version_guard_witness :
    sendCodeSnippet emptyDocManager { changes := [hiChange], versionId := 0 } =
      { emptyDocManager with outbound := [IMessageData.codeSnippet { changes := [hiChange], versionId := 0 }] } :=
  (sendCodeSnippet_version_guard emptyDocManager { text := [], version := 0 }
    { changes := [hiChange], versionId := 0 } rfl).2.1 (by decide)

theorem widgetPosAt_addCursor (mgr : RemoteCursorManager) (u : IEditorUser) (id : String) :
    widgetPosAt (addCursor mgr u).2.cursorWidgets id = widgetPosAt mgr.cursorWidgets id := by
  cases h : regLookup mgr.cursorWidgets u.uid with
  | some w => simp [addCursor, h]
  | none =>
      by_cases hid : id = u.uid
      · subst hid
        simp [widgetPosAt, addCursor, h, regLookup_regSet_eq, mkRemoteCursorWidget]
      · simp [widgetPosAt, addCursor, h, regLookup_regSet_ne _ _ _ _ hid]

theorem selStartAt_addSelection (mgr : RemoteSelectionManager) (u : IEditorUser) (id : String) :
    selStartAt (addSelection mgr u).2.remoteSelections id = selStartAt mgr.remoteSelections id := by
  cases h : regLookup mgr.remoteSelections u.uid with
  | some s => simp [addSelection, h]
  | none =>
      by_cases hid : id = u.uid
      · subst hid
        simp [selStartAt, addSelection, h, regLookup_regSet_eq, mkRemoteSelection]
      · simp [selStartAt, addSelection, h, regLookup_regSet_ne _ _ _ _ hid]

theorem selEndAt_addSelection (mgr : RemoteSelectionManager) (u : IEditorUser) (id : String) :
    selEndAt (addSelection mgr u).2.remoteSelections id = selEndAt mgr.remoteSelections id := by
  cases h : regLookup mgr.remoteSelections u.uid with
  | some s => simp [addSelection, h]
  | none =>
      by_cases hid : id = u.uid
      · subst hid
        simp [selEndAt, addSelection, h, regLookup_regSet_eq, mkRemoteSelection]
      · simp [selEndAt, addSelection, h, regLookup_regSet_ne _ _ _ _ hid]

/-- C2: an inbound `CodeEdit` whose carried version is at most the
current model version is silently discarded by the receive path: the
document, the outbound queue and the position of every cursor and
selection overlay are left exactly as they were. -/
theorem stale_edit_discarded (m : EditorContentManager) (model : EditorState) (uid : String)
    (event : IModelContentChangedEvent) (hm : m.model = some model)
    (hv : event.versionId ≤ model.version) :
    (receiver m { uid := some uid, data := IMessageData.codeSnippet event }).model = m.model ∧
    (receiver m { uid := some uid, data := IMessageData.codeSnippet event }).outbound = m.outbound ∧
    (∀ id, cursorPosOf (receiver m { uid := some uid, data := IMessageData.codeSnippet event }) id =
        cursorPosOf m id) ∧
    (∀ id, selStartOf (receiver m { uid := some uid, data := IMessageData.codeSnippet event }) id =
        selStartOf m id) ∧
    (∀ id, selEndOf (receiver m { uid := some uid, data := IMessageData.codeSnippet event }) id =
        selEndOf m id) := by
  refine ⟨?_, ?_, ?_, ?_, ?_⟩
  · simp [receiver, updateContent, hm, hv]
  · simp [receiver, updateContent, hm, hv]
  · intro id
    simp [receiver, updateContent, hm, hv, cursorPosOf, widgetPosAt_addCursor]
  · intro id
    simp [receiver, updateContent, hm, hv, selStartOf, selStartAt_addSelection]
  · intro id
    simp [receiver, updateContent, hm, hv, selEndOf, selEndAt_addSelection]

theorem stale_edit_discarded_witness :
    (receiver emptyDocManager
        { uid := some "alice"
          data := IMessageData.codeSnippet { changes := [hiChange], versionId := 0 } }).model =
      emptyDocManager.model :=
  (stale_edit_discarded emptyDocManager { text := [], version := 0 } "alice"
    { changes := [hiChange], versionId := 0 } rfl (by decide)).1

theorem applyCursorOp_nondispose_const (w : RemoteCursorWidget) (op : CursorOp)
    (h : op ≠ CursorOp.disposeOp) :
    (applyCursorOp w op).onDisposedCount = w.onDisposedCount ∧
    (applyCursorOp w op).disposed = w.disposed := by
  cases op with
  | disposeOp => exact absurd rfl h
  | showOp => simp [applyCursorOp, RemoteCursorWidget.show]
  | hideOp => simp [applyCursorOp, RemoteCursorWidget.hide]
  | setPositionOp p =>
      simp only [applyCursorOp, RemoteCursorWidget.setPosition, RemoteCursorWidget.updatePosition]
      split <;> simp
  | setOffsetOp mt off =>
      cases mt with
      | none => simp [applyCursorOp, RemoteCursorWidget.setOffset]
      | some text =>
          simp only [applyCursorOp, RemoteCursorWidget.setOffset, RemoteCursorWidget.setPosition,
            RemoteCursorWidget.updatePosition]
          split <;> simp
  | runPendingShowOp =>
      simp only [applyCursorOp, RemoteCursorWidget.runPendingShow]
      split
      · simp
      · simp only [RemoteCursorWidget.showTooltip]
        split <;> simp
  | fireHideTimerOp =>
      simp only [applyCursorOp, RemoteCursorWidget.fireHideTimer]
      split
      · simp
      · split <;> simp

theorem cursor_dispose_idem (w : RemoteCursorWidget) : w.dispose.dispose = w.dispose := by
  cases hd : w.disposed <;> simp [RemoteCursorWidget.dispose, hd]

theorem cursorInv_step (w : RemoteCursorWidget) (op : CursorOp)
    (h1 : w.onDisposedCount ≤ 1) (h2 : w.disposed = false → w.onDisposedCount = 0) :
    (applyCursorOp w op).onDisposedCount ≤ 1 ∧
    ((applyCursorOp w op).disposed = false → (applyCursorOp w op).onDisposedCount = 0) := by
  by_cases hop : op = CursorOp.disposeOp
  · subst hop
    cases hd : w.disposed with
    | false => simp [applyCursorOp, RemoteCursorWidget.dispose, hd, h2 hd]
    | true =>
        refine ⟨?_, ?_⟩
        · simpa [applyCursorOp, RemoteCursorWidget.dispose, hd] using h1
        · simp [applyCursorOp, RemoteCursorWidget.dispose, hd]
  · obtain ⟨hc, hdisp⟩ := applyCursorOp_nondispose_const w op hop
    rw [hc, hdisp]
    exact ⟨h1, h2⟩

theorem runCursorOps_count (ops : List CursorOp) (w : RemoteCursorWidget)
    (h1 : w.onDisposedCount ≤ 1) (h2 : w.disposed = false → w.onDisposedCount = 0) :
    (runCursorOps w ops).onDisposedCount ≤ 1 := by
  induction ops generalizing w with
  | nil => exact h1
  | cons op rest ih =>
      obtain ⟨g1, g2⟩ := cursorInv_step w op h1 h2
      simpa [runCursorOps] using ih (applyCursorOp w op) g1 g2

theorem applySelOp_nondispose_const (s : RemoteSelection) (op : SelOp)
    (h : op ≠ SelOp.disposeOp) :
    (applySelOp s op).onDisposedCount = s.onDisposedCount ∧
    (applySelOp s op).disposed = s.disposed := by
  cases op with
  | disposeOp => exact absurd rfl h
  | showOp =>
      cases hsp : s.startPosition with
      | none => simp [applySelOp, RemoteSelection.show, RemoteSelection.render, hsp]
      | some sp =>
          cases hep : s.endPosition with
          | none => simp [applySelOp, RemoteSelection.show, RemoteSelection.render, hsp, hep]
          | some ep => simp [applySelOp, RemoteSelection.show, RemoteSelection.render, hsp, hep]
  | hideOp => simp [applySelOp, RemoteSelection.hide]
  | setPositionsOp a b =>
      simp [applySelOp, RemoteSelection.setPositions, RemoteSelection.render]
  | setOffsetsOp mt a b =>
      cases mt with
      | none => simp [applySelOp, RemoteSelection.setOffsets]
      | some text =>
          simp [applySelOp, RemoteSelection.setOffsets, RemoteSelection.setPositions,
            RemoteSelection.render]

theorem sel_dispose_idem (s : RemoteSelection) : s.dispose.dispose = s.dispose := by
  cases hd : s.disposed <;> simp [RemoteSelection.dispose, hd]

theorem selInv_step (s : RemoteSelection) (op : SelOp)
    (h1 : s.onDisposedCount ≤ 1) (h2 : s.disposed = false → s.onDisposedCount = 0) :
    (applySelOp s op).onDisposedCount ≤ 1 ∧
    ((applySelOp s op).disposed = false → (applySelOp s op).onDisposedCount = 0) := by
  by_cases hop : op = SelOp.disposeOp
  · subst hop
    cases hd : s.disposed with
    | false => simp [applySelOp, RemoteSelection.dispose, hd, h2 hd]
    | true =>
        refine ⟨?_, ?_⟩
        · simpa [applySelOp, RemoteSelection.dispose, hd] using h1
        · simp [applySelOp, RemoteSelection.dispose, hd]
  · obtain ⟨hc, hdisp⟩ := applySelOp_nondispose_const s op hop
    rw [hc, hdisp]
    exact ⟨h1, h2⟩

theorem runSelOps_count (ops : List SelOp) (s : RemoteSelection)
    (h1 : s.onDisposedCount ≤ 1) (h2 : s.disposed = false → s.onDisposedCount = 0) :
    (runSelOps s ops).onDisposedCount ≤ 1 := by
  induction ops generalizing s with
  | nil => exact h1
  | cons op rest ih =>
      obtain ⟨g1, g2⟩ := selInv_step s op h1 h2
      simpa [runSelOps] using ih (applySelOp s op) g1 g2

/-- C7: for both overlay widgets, a second `dispose` is a no-op; over
any sequence of operations starting from a freshly constructed overlay
the `onDisposed` callback fires at most once; and no operation applied
after a disposal — all of which are total, the code throws on none of
these paths — ever invokes the disposal callback again. -/
theorem overlay_dispose_safety :
    (∀ w : RemoteCursorWidget, w.dispose.dispose = w.dispose) ∧
    (∀ (aid : Nat) (color label : String) (te : Bool) (td : Nat) (ops : List CursorOp),
        (runCursorOps (mkRemoteCursorWidget aid color label te td) ops).onDisposedCount ≤ 1) ∧
    (∀ (w : RemoteCursorWidget) (op : CursorOp),
        (applyCursorOp w.dispose op).onDisposedCount = w.dispose.onDisposedCount) ∧
    (∀ s : RemoteSelection, s.dispose.dispose = s.dispose) ∧
    (∀ (aid : Nat) (id color label : String) (ops : List SelOp),
        (runSelOps (mkRemoteSelection aid id color label) ops).onDisposedCount ≤ 1) ∧
    (∀ (s : RemoteSelection) (op : SelOp),
        (applySelOp s.dispose op).onDisposedCount = s.dispose.onDisposedCount) := by
  refine ⟨cursor_dispose_idem, ?_, ?_, sel_dispose_idem, ?_, ?_⟩
  · intro aid color label te td ops
    exact runCursorOps_count ops _ (by simp [mkRemoteCursorWidget]) (by simp [mkRemoteCursorWidget])
  · intro w op
    by_cases hop : op = CursorOp.disposeOp
    · subst hop
      show w.dispose.dispose.onDisposedCount = w.dispose.onDisposedCount
      rw [cursor_dispose_idem]
    · exact (applyCursorOp_nondispose_const w.dispose op hop).1
  · intro aid id color label ops
    exact runSelOps_count ops _ (by simp [mkRemoteSelection]) (by simp [mkRemoteSelection])
  · intro s op
    by_cases hop : op = SelOp.disposeOp
    · subst hop
      show s.dispose.dispose.onDisposedCount = s.dispose.onDisposedCount
      rw [sel_dispose_idem]
    · exact (applySelOp_nondispose_const s.dispose op hop).1

theorem setPosition_position (w : RemoteCursorWidget) (p : IPosition) :
    (w.setPosition p).position = some p := by
  simp only [RemoteCursorWidget.setPosition, RemoteCursorWidget.updatePosition]
  split <;> simp

theorem addCursor_lookup_self (mgr : RemoteCursorManager) (u : IEditorUser) :
    ∃ w, regLookup (addCursor mgr u).2.cursorWidgets u.uid = some w := by
  cases h : regLookup mgr.cursorWidgets u.uid with
  | some w => exact ⟨w, by simp [addCursor, h]⟩
  | none =>
      exact ⟨mkRemoteCursorWidget mgr.created u.color u.label mgr.tooltips
        (mgr.tooltipDuration * 1000), by simp [addCursor, h, regLookup_regSet_eq]⟩

theorem widgetPosAt_setCursorPosition (mgr : RemoteCursorManager) (id : String)
    (w : RemoteCursorWidget) (p : IPosition)
    (h : regLookup mgr.cursorWidgets id = some w) :
    widgetPosAt (setCursorPosition mgr id p).cursorWidgets id = some p := by
  simp [setCursorPosition, h, widgetPosAt, regLookup_regSet_eq, setPosition_position]

theorem receiver_single_edit_step (uid : String) (m : EditorContentManager)
    (t : List Char) (v : Nat) (c : IModelContentChange)
    (hm : m.model = some { text := t, version := v }) :
    (receiver m (mkEditMsg uid (v + 1) c)).model =
      some { text := applyChange t c, version := v + 1 } ∧
    cursorPosOf (receiver m (mkEditMsg uid (v + 1) c)) uid =
      some (getPositionAt (applyChange t c) (c.rangeOffset + c.text.length)) := by
  have hnle : ¬ (v + 1 ≤ v) := Nat.not_succ_le_self v
  have hnlt : ¬ (v + 1 < v + 1) := Nat.lt_irrefl _
  obtain ⟨w, hw⟩ :=
    addCursor_lookup_self m.cursorManager { uid := uid, color := "blue", label := "User-" ++ uid }
  constructor
  · simp [receiver, mkEditMsg, updateContent, hm, hnle, applyOneRemoteChange, executeEditsOne,
      sendCodeSnippet, sendMessage, hnlt]
  · simp only [receiver, mkEditMsg, updateContent, hm, hnle, applyOneRemoteChange,
      executeEditsOne, sendCodeSnippet, sendMessage, hnlt, cursorPosOf, List.foldl,
      if_false, ite_false]
    simp [hnle, hnlt, widgetPosAt_setCursorPosition _ _ _ _ hw]

/-- C3 (amended: each inbound edit carries exactly one change — the
receive path runs one `executeEdits` per change, each advancing the
model version by one, so a multi-change edit makes the version outrun
the next consecutive-version edit): a sequence of single-change inbound
CodeEdits with versions `V+1, V+2, ...` arriving at a document at
version `V` is applied change by change, exactly once each, in arrival
order; after each one the sender's cursor overlay sits at the offset
immediately following the inserted text, and the document version
advances with each message. -/
theorem monotonic_single_change_edits_applied (uid : String) (cs : List IModelContentChange)
    (m : EditorContentManager) (t : List Char) (v : Nat)
    (hm : m.model = some { text := t, version := v }) :
    obsTrace uid m (mkEditMsgs uid v cs) = specEditTrace t v cs := by
  induction cs generalizing m t v with
  | nil => simp [mkEditMsgs, obsTrace, specEditTrace]
  | cons c rest ih =>
      obtain ⟨h1, h2⟩ := receiver_single_edit_step uid m t v c hm
      simp only [mkEditMsgs, obsTrace, specEditTrace]
      rw [h1, h2, ih (receiver m (mkEditMsg uid (v + 1) c)) (applyChange t c) (v + 1) h1]

theorem monotonic_single_change_edits_applied_witness :
    obsTrace "alice" emptyDocManager (mkEditMsgs "alice" 0 [insChange 'a', insChange 'b']) =
      specEditTrace [] 0 [insChange 'a', insChange 'b'] :=
  monotonic_single_change_edits_applied "alice" [insChange 'a', insChange 'b']
    emptyDocManager [] 0 rfl

/-- C3 counterexample to the claim as stated: at version 0, the inbound
edits version 1 (carrying two changes, inserting `a` then `b`) and
version 2 (carrying one change, inserting `c`) have strictly increasing
versions `V+1, V+2`, yet the second edit is never applied: applying the
first edit runs `executeEdits` twice, leaving the model at version 2,
so the second edit fails the `versionId <= getVersionId()` check and
the whole receive step returns the state unchanged — the final text is
`ba`, not the `cba` that applying its change would have produced. -/
theorem multi_change_edit_is_dropped :
    (processInbound emptyDocManager [c3Msg1, c3Msg2]).model =
      some { text := ['b', 'a'], version := 2 } ∧
    applyChange ['b', 'a'] (insChange 'c') = ['c', 'b', 'a'] ∧
    receiver (processInbound emptyDocManager [c3Msg1]) c3Msg2 =
      processInbound emptyDocManager [c3Msg1] := by
  refine ⟨by decide, by decide, by decide⟩
